import Mathlib

/-!
Shallow embedding of the `medusa` task-queue library (files `medusa/api.py`,
`medusa/storage.py`, `medusa/utils.py`, `medusa/exceptions.py`) together with
theorems settling the specification claims about it.

Modelling conventions:
* A Python `datetime.datetime` is modelled by its wall-clock instant flattened
  to a single integer number of seconds (`wall`) plus its `utcoffset()` in
  seconds (`tz`, `none` for a naive value).  The calendar encoding between the
  six wall-clock fields and this flattened integer is injective and plays no
  role in any claim, so the flattened form is used directly.
* Exceptions are values: a fallible Python call is embedded as an
  `Except PyError _` value.  `PyError` has constructors for the builtin
  exceptions the code can raise (`ValueError`, `NameError`, `TypeError`,
  `AssertionError`) and one for the library's own exception taxonomy from
  `exceptions.py`.
* Database tables are lists of row structures; the storage-assigned primary
  key `id` is an explicit field, and facts that rely on it being a primary key
  take the no-duplicate-ids invariant as a hypothesis.
* Platform-dependent pieces (the local-time clock used by `time.mktime` /
  `time.gmtime`, the calendar encoding of field tuples) are abstracted as
  function parameters, universally quantified in the theorems.
-/

namespace Medusa

/-- A Python `datetime.datetime`: wall-clock instant in seconds plus the
`utcoffset()` in seconds (`none` when the value is naive). -/
structure PyDateTime where
  wall : Int
  tz : Option Int
deriving DecidableEq, Repr

/-- The exception taxonomy of `medusa/exceptions.py`: the subclasses of
`QueueException`. -/
inductive TaxKind where
  | queueWrite
  | queueRead
  | queueRemove
  | dataStoreGet
  | dataStorePut
  | dataStoreTimeout
  | scheduleAdd
  | scheduleRead
  | configuration
deriving DecidableEq, Repr

/-- Default-message label of each taxonomy kind, from the constructors in
`medusa/exceptions.py` (used when `msg is None`). -/
def kindLabel : TaxKind → String
  | .queueWrite => "Queue write exception"
  | .queueRead => "Queue read exception"
  | .queueRemove => "Queue remove exception"
  | .dataStoreGet => "Data store get exception"
  | .dataStorePut => "Data store put exception"
  | .dataStoreTimeout => "Data store timeout exception"
  | .scheduleAdd => "Schedule add exception"
  | .scheduleRead => "Schedule read exception"
  | .configuration => "Configuration error exception"

/-- An exception value as raised by the embedded code: the builtin Python
exceptions the source can raise, plus the library's taxonomy kinds. -/
inductive PyError where
  | valueError
  | nameError (missing : String)
  | typeError
  | assertionError
  | taxonomy (kind : TaxKind) (msg : String)
deriving DecidableEq, Repr

/-- An error raised by the underlying storage backend, before the facade
normalizes it: its class name and its message. -/
structure BackendErr where
  kindName : String
  message : String
deriving DecidableEq, Repr

/-- Constructing a taxonomy exception with `msg=None`, as `wrap_exception`
does: every constructor in `exceptions.py` then synthesizes
`"<label>: <queue argument>"`. -/
def mkTaxonomyExc (kind : TaxKind) (queueArg : String) : PyError :=
  .taxonomy kind (kindLabel kind ++ ": " ++ queueArg)

/-! ## `medusa/utils.py` -/

/-- Embeds `utils.is_naive(dt)`: `dt.utcoffset() is None`. -/
def is_naive (dt : PyDateTime) : Bool :=
  dt.tz.isNone

/-- Embeds `utils.is_aware(dt)`: `not is_naive(dt)`. -/
def is_aware (dt : PyDateTime) : Bool :=
  !(is_naive dt)

/-- Embeds `utils.make_naive(dt)`: `dt.replace(tzinfo=None)` — strip the offset,
keep the wall-clock fields. -/
def make_naive (dt : PyDateTime) : PyDateTime :=
  { dt with tz := none }

/-- Embeds `dt.astimezone(UTC())`: re-express `dt` at UTC offset.  An aware value is
shifted by its own offset; a naive value is interpreted as platform local time
(offset `localOffset`).  The result always carries the UTC offset `0`. -/
def astimezoneUTC (localOffset : Int) (dt : PyDateTime) : PyDateTime :=
  match dt.tz with
  | some off => ⟨dt.wall - off, some 0⟩
  | none => ⟨dt.wall - localOffset, some 0⟩

/-- Embeds `utils.aware_to_utc(dt)`: `dt = dt.astimezone(UTC())`, then
`assert not is_naive(dt)`, then `return make_naive(dt)`.  The assertion fails
(AssertionError) exactly when the re-expressed value is naive. -/
def aware_to_utc (localOffset : Int) (dt : PyDateTime) : Except PyError PyDateTime :=
  let d := astimezoneUTC localOffset dt
  if is_naive d then .error .assertionError
  else .ok (make_naive d)

/-- A `time.struct_time` as returned by `time.gmtime`: nine integer fields. -/
structure StructTime where
  tm_year : Int
  tm_mon : Int
  tm_mday : Int
  tm_hour : Int
  tm_min : Int
  tm_sec : Int
  tm_wday : Int
  tm_yday : Int
  tm_isdst : Int
deriving DecidableEq, Repr

/-- The sequence of the nine fields of a `struct_time`, in order: unpacking
`*struct_time` passes exactly these nine positional arguments. -/
def StructTime.fields (st : StructTime) : List Int :=
  [st.tm_year, st.tm_mon, st.tm_mday, st.tm_hour, st.tm_min, st.tm_sec,
   st.tm_wday, st.tm_yday, st.tm_isdst]

/-- Embeds `datetime.datetime(*args)` where every positional argument is an integer
(as the fields of a `struct_time` are).  The constructor takes between 3 and 8
positional arguments, and its 8th positional parameter is `tzinfo`, which must
be a `tzinfo` instance or `None` — an integer there raises TypeError.  So an
all-integer call succeeds only with 3 to 7 arguments; `enc` is the (injective,
here abstract) calendar encoding of the accepted field tuple into the
flattened wall-clock instant. -/
def datetimeOfIntArgs (enc : List Int → Int) (args : List Int) :
    Except PyError PyDateTime :=
  if args.length < 3 then .error .typeError
  else if args.length ≤ 7 then .ok ⟨enc args, none⟩
  else .error .typeError

/-- Subscripting (`[:6]`) applied to a `datetime.datetime` value: datetime
objects are not subscriptable, so this raises TypeError. -/
def pyDatetimeSlice (dt : PyDateTime) : Except PyError PyDateTime :=
  let _ := dt
  .error .typeError

/-- Embeds `utils.local_to_utc(dt)`:
`return datetime.datetime(*time.gmtime(time.mktime(dt.timetuple())))[:6]`.
`gm` abstracts `time.gmtime(time.mktime(dt.timetuple()))` (a platform
local-to-UTC round trip yielding a nine-field `struct_time`); the
`datetime.datetime(*...)` call then receives all nine fields as positional
integer arguments, and the trailing `[:6]` is applied to the constructed
datetime, not to the time tuple. -/
def local_to_utc (gm : PyDateTime → StructTime) (enc : List Int → Int)
    (dt : PyDateTime) : Except PyError PyDateTime := do
  let st := gm dt
  let d ← datetimeOfIntArgs enc st.fields
  pyDatetimeSlice d

/-- Embeds `utils.wrap_exception(new_exc_class)`: reads the propagating exception via
`sys.exc_info()` and raises
`new_exc_class("{}: {}".format(exc_class.__name__, exc))` — the formatted
string is passed as the constructor's `queue` argument with `msg=None`, so the
new exception's message is the kind's label followed by the original kind name
and message. -/
def wrap_exception (kind : TaxKind) (e : BackendErr) : PyError :=
  mkTaxonomyExc kind (e.kindName ++ ": " ++ e.message)

/-! ## `medusa/storage.py`: the row model and `SqliteStorage`

Payloads (`data`/`value` blob columns) are modelled as `String`. -/

/-- A row of the `Task` table: `queue = CharField()`, `data = BlobField()`,
plus the storage-assigned primary key `id`. -/
structure TaskRow where
  id : Nat
  queue : String
  data : String
deriving DecidableEq, Repr

/-- A row of the `Schedule` table: `queue`, `data`, `timestamp`, plus the
storage-assigned primary key `id`. -/
structure ScheduleRow where
  id : Nat
  queue : String
  data : String
  timestamp : Int
deriving DecidableEq, Repr

/-- Primary-key invariant of the `Task` table: row ids are storage-assigned
and pairwise distinct. -/
def taskIdsNodup (tbl : List TaskRow) : Prop :=
  (tbl.map TaskRow.id).Nodup

/-- Primary-key invariant of the `Schedule` table. -/
def scheduleIdsNodup (tbl : List ScheduleRow) : Prop :=
  (tbl.map ScheduleRow.id).Nodup

instance (tbl : List TaskRow) : Decidable (taskIdsNodup tbl) := by
  unfold taskIdsNodup; infer_instance

instance (tbl : List ScheduleRow) : Decidable (scheduleIdsNodup tbl) := by
  unfold scheduleIdsNodup; infer_instance

namespace SqliteStorage

/-- Embeds `SqliteStorage.tasks()`: `Task.select().where(Task.queue == self.name)`. -/
def tasks (name : String) (tbl : List TaskRow) : List TaskRow :=
  tbl.filter (fun r => r.queue == name)

/-- Embeds `ORDER BY Task.id LIMIT 1 ... get()`: the row with the smallest id (ties
resolved in favour of the earlier row; ids are in fact unique). -/
def minIdRow : List TaskRow → Option TaskRow
  | [] => none
  | r :: rs =>
    match minIdRow rs with
    | none => some r
    | some m => if r.id ≤ m.id then some r else some m

/-- A `DELETE ... WHERE p` statement's `execute()`: the number of affected
rows together with the table afterwards. -/
def deleteWhere (p : TaskRow → Bool) (tbl : List TaskRow) :
    Nat × List TaskRow :=
  ((tbl.filter p).length, tbl.filter (fun r => !(p r)))

/-- Embeds `SqliteStorage.dequeue` as the two database round trips it performs: the
`SELECT` runs against table state `s₁` and the `DELETE` against state `s₂`
(another consumer may change the table in between).
```
try:
    task = (self.tasks().order_by(Task.id).limit(1).get())
except Task.DoesNotExist:
    return
res = self.delete().where(Task.id == task.id).execute()
if res == 1:
    return task.data
```
`self.delete()` is `Task.delete().where(Task.queue == self.name)`, so the
chained `DELETE` matches on queue name and id. -/
def dequeueSteps (name : String) (s₁ s₂ : List TaskRow) :
    Option String × List TaskRow :=
  match minIdRow (tasks name s₁) with
  | none => (none, s₂)
  | some task =>
    let res := deleteWhere (fun r => r.queue == name && r.id == task.id) s₂
    (if res.1 == 1 then some task.data else none, res.2)

/-- Embeds `SqliteStorage.dequeue` in an undisturbed table state: both round trips
see the same table. -/
def dequeue (name : String) (tbl : List TaskRow) :
    Option String × List TaskRow :=
  dequeueSteps name tbl tbl

/-- Embeds `SqliteStorage.unqueue(data)`:
`self.delete().where(Task.data == data).execute()` — delete the rows whose
queue is this storage's name and whose payload equals `data`; returns the
affected-row count and the table afterwards. -/
def unqueue (name : String) (data : String) (tbl : List TaskRow) :
    Nat × List TaskRow :=
  deleteWhere (fun r => r.queue == name && r.data == data) tbl

/-- Embeds `SqliteStorage.enqueue(data)`: `Task.create(queue=self.name, data=data)`
with a fresh storage-assigned id. -/
def enqueue (name : String) (data : String) (tbl : List TaskRow) :
    List TaskRow :=
  tbl ++ [⟨(tbl.map TaskRow.id).foldr max 0 + 1, name, data⟩]

/-- The `ORDER BY Schedule.timestamp` comparison. -/
def tsLe (a b : ScheduleRow) : Prop :=
  a.timestamp ≤ b.timestamp

instance : DecidableRel tsLe := fun a b => Int.decLe a.timestamp b.timestamp

instance : IsTotal ScheduleRow tsLe :=
  ⟨fun a b => Int.le_total a.timestamp b.timestamp⟩

instance : IsTrans ScheduleRow tsLe :=
  ⟨fun _ _ _ hab hbc => Int.le_trans hab hbc⟩

/-- Embeds `SqliteStorage.schedule()`: `Schedule.select().where(Schedule.queue ==
self.name).order_by(Schedule.timestamp)` — this queue's schedule rows in
timestamp order (stable sort: rows with equal timestamps keep their table
order). -/
def schedule (name : String) (tbl : List ScheduleRow) : List ScheduleRow :=
  List.insertionSort tsLe (tbl.filter (fun r => r.queue == name))

/-- The `SELECT` of `read_schedule`: `self.schedule(Schedule.id,
Schedule.data).where(Schedule.timestamp <= ts)` — this queue's rows whose
timestamp is at or before the cutoff, in timestamp order. -/
def scheduleDue (name : String) (ts : Int) (tbl : List ScheduleRow) :
    List ScheduleRow :=
  (schedule name tbl).filter (fun r => r.timestamp ≤ ts)

/-- Embeds `SqliteStorage.read_schedule(ts)`:
```
tasks = self.schedule(Schedule.id, Schedule.data).where(Schedule.timestamp <= ts).tuples()
id_list, data = [], []
for task_id, task_data in tasks:
    id_list.append(task_id); data.append(task_data)
if id_list:
    Schedule.delete().where(Schedule.id << id_list).execute()
return data
```
The bulk `DELETE` matches ids only (not the queue column). -/
def read_schedule (name : String) (ts : Int) (tbl : List ScheduleRow) :
    List String × List ScheduleRow :=
  let sel := scheduleDue name ts tbl
  let id_list := sel.map ScheduleRow.id
  let data := sel.map ScheduleRow.data
  if id_list.isEmpty then (data, tbl)
  else (data, tbl.filter (fun r => !(id_list.contains r.id)))

/-- Embeds `SqliteStorage.scheduled_items(limit=None)`:
```
tasks = self.schedule(Schedule.data).order_by(Schedule.timestamp).tuples()
return map(operator.itemgetter(0), tasks)
```
The `limit` parameter is accepted but never applied to the query. -/
def scheduled_items (name : String) (limit : Option Nat)
    (tbl : List ScheduleRow) : List String :=
  let _ := limit
  (schedule name tbl).map ScheduleRow.data

end SqliteStorage

/-! ## `medusa/api.py`: the `Medusa` facade

The facade's configuration flags are the constructor arguments of
`Medusa.__init__`; the registry and the task's own `execute()` are abstracted
by carrying the serialized message and the execute result inside the task
model. -/

/-- A row of the `KeyValue` table. -/
structure KVRow where
  id : Nat
  queue : String
  key : String
  value : String
deriving DecidableEq, Repr

/-- The whole backing database: the three tables. -/
structure StorageState where
  tasks : List TaskRow
  schedules : List ScheduleRow
  keyvalues : List KVRow
deriving DecidableEq, Repr

/-- The configuration flags taken by `Medusa.__init__`. -/
structure MedusaConfig where
  name : String
  result_store : Bool
  events : Bool
  store_none : Bool
  always_eager : Bool
  store_errors : Bool
  blocking : Bool
deriving DecidableEq, Repr

/-- A task instance as `enqueue` sees it: `message` is
`registry.get_message_for_task(task)` (the serialized wire payload) and
`executeResult` is the value `task.execute()` returns (the wrapped function's
return value). -/
structure MTask where
  message : String
  executeResult : String
deriving DecidableEq, Repr

/-- What `Medusa.enqueue` returns when it does not raise. -/
inductive EnqueueRet where
  /-- Eager mode: the wrapped function's return value. -/
  | value (v : String)
  /-- Queued without a result store: the Python function falls through and
  returns `None`. -/
  | noneRet
deriving DecidableEq, Repr

/-- Modelled from the spec: the decorator `_wrapped_operation(new_exc_class)`
applied to the facade's internal operations in `api.py` is used but nowhere
defined under `src/`; per the spec (§4.8) each wrapped operation calls the
corresponding backend operation and, on any backend-level error, re-raises it
normalized to the given taxonomy kind via `wrap_exception`.  The backend call
is abstracted by its outcome. -/
def wrappedOperation {α : Type} (kind : TaxKind) (call : Except BackendErr α) :
    Except PyError α :=
  match call with
  | .ok a => .ok a
  | .error e => .error (wrap_exception kind e)

/-- Embeds `Medusa._enqueue`, wrapped with `QueueWriteException`. -/
def _enqueue (call : Except BackendErr Unit) : Except PyError Unit :=
  wrappedOperation .queueWrite call

/-- Embeds `Medusa._dequeue`, wrapped with `QueueReadException`. -/
def _dequeue (call : Except BackendErr (Option String)) :
    Except PyError (Option String) :=
  wrappedOperation .queueRead call

/-- Embeds `Medusa._unqueue`, wrapped with `QueueRemoveException`. -/
def _unqueue (call : Except BackendErr Nat) : Except PyError Nat :=
  wrappedOperation .queueRemove call

/-- Embeds `Medusa._get_data`, wrapped with `DataStoreGetException`: calls
`peek_data` when `peek` is set, `pop_data` otherwise. -/
def _get_data (peek : Bool) (peek_call pop_call : Except BackendErr String) :
    Except PyError String :=
  wrappedOperation .dataStoreGet (if peek then peek_call else pop_call)

/-- Embeds `Medusa._put_data`, wrapped with `DataStorePutException`. -/
def _put_data (call : Except BackendErr Unit) : Except PyError Unit :=
  wrappedOperation .dataStorePut call

/-- Embeds `Medusa._put_error`, wrapped with `DataStorePutException`. -/
def _put_error (call : Except BackendErr Unit) : Except PyError Unit :=
  wrappedOperation .dataStorePut call

/-- Embeds `Medusa._get_errors`, wrapped with `DataStoreGetException`. -/
def _get_errors (call : Except BackendErr (List String)) :
    Except PyError (List String) :=
  wrappedOperation .dataStoreGet call

/-- Embeds `Medusa._add_to_schedule`, wrapped with `ScheduleAddException`. -/
def _add_to_schedule (call : Except BackendErr Unit) : Except PyError Unit :=
  wrappedOperation .scheduleAdd call

/-- Embeds `Medusa._read_schedule`, wrapped with `ScheduleReadException`. -/
def _read_schedule (call : Except BackendErr (List String)) :
    Except PyError (List String) :=
  wrappedOperation .scheduleRead call

/-- Embeds `Medusa.emit(message)`: calls `self.storage.emit(message)` inside
`try: ... except: pass` — any failure of the underlying emit is swallowed. -/
def emit (call : Except BackendErr Unit) : Except PyError Unit :=
  match call with
  | .ok _ => .ok ()
  | .error _ => .ok ()

/-- Embeds `Medusa.enqueue(task)`:
```
if self.always_eager:
    return task.execute()
self._enqueue(registry.get_message_for_task(task))
if self.result_store:
    return TasResultWrapper(self, task)
```
In eager mode the task runs synchronously and its value is returned with no
storage access.  Otherwise the serialized message is written to the queue
table; the name `TasResultWrapper` is not defined anywhere in the source, so
the result-store branch then raises NameError (after the write). -/
def enqueue (cfg : MedusaConfig) (t : MTask) (st : StorageState) :
    Except PyError EnqueueRet × StorageState :=
  if cfg.always_eager then (.ok (.value t.executeResult), st)
  else
    let st' := { st with tasks := SqliteStorage.enqueue cfg.name t.message st.tasks }
    if cfg.result_store then (.error (.nameError "TasResultWrapper"), st')
    else (.ok .noneRet, st')

/-- Python truthiness of the `delay` argument (`None` or an integer):
`if delay:` is taken iff the value is present and nonzero. -/
def truthyDelay : Option Int → Bool
  | none => false
  | some d => d != 0

/-- Python truthiness of the `eta` argument (`None` or a datetime): datetime
objects are always truthy. -/
def truthyEta : Option PyDateTime → Bool
  | none => false
  | some _ => true

/-- The ETA normalization in the `schedule` closure of `Medusa.task`:
```
if is_naive(eta) and convert_utc:
    eta = local_to_utc(eta)
elif is_aware(eta) and convert_utc:
    eta = aware_to_utc(eta)
elif is_aware(eta) and not convert_utc:
    eta = make_naive(eta)
```
-/
def normalizeEta (gm : PyDateTime → StructTime) (enc : List Int → Int)
    (localOffset : Int) (convert_utc : Bool) (eta : PyDateTime) :
    Except PyError PyDateTime :=
  if is_naive eta && convert_utc then local_to_utc gm enc eta
  else if is_aware eta && convert_utc then aware_to_utc localOffset eta
  else if is_aware eta && !convert_utc then .ok (make_naive eta)
  else .ok eta

/-- The `schedule(args=None, kwargs=None, eta=None, delay=None,
convert_utc=True, task_id=None)` closure attached to a decorated task:
```
if delay and eta:
    raise ValueError(...)
if delay:
    eta = datetime.datetime.now() + datetime.timedelta(seconds=delay)
if eta:
    <normalization>
cmd = klass((args or (), kawargs or {}), ...)
return self.enqueue(cmd)
```
`now` is the naive local wall clock of `datetime.datetime.now()`.  The name
`kawargs` in the `klass(...)` call is not defined anywhere, so every call that
passes the earlier checks raises NameError when building `cmd`, before any
storage access. -/
def scheduleMethod (gm : PyDateTime → StructTime) (enc : List Int → Int)
    (localOffset : Int) (now : Int) (eta : Option PyDateTime)
    (delay : Option Int) (convert_utc : Bool) (st : StorageState) :
    Except PyError EnqueueRet × StorageState :=
  if truthyDelay delay && truthyEta eta then (.error .valueError, st)
  else
    let eta : Option PyDateTime :=
      match delay with
      | some d => if d != 0 then some ⟨now + d, none⟩ else eta
      | none => eta
    match eta with
    | some e =>
      match normalizeEta gm enc localOffset convert_utc e with
      | .error err => (.error err, st)
      | .ok _ => (.error (.nameError "kawargs"), st)
    | none => (.error (.nameError "kawargs"), st)

/-- Does a call outcome consist in raising a Configuration-kind taxonomy
exception? -/
def raisesConfigurationKind (r : Except PyError EnqueueRet × StorageState) :
    Bool :=
  match r.1 with
  | .error (.taxonomy .configuration _) => true
  | _ => false

/-! ## Concrete states used to instantiate the theorems -/

/-- A sample `Task` table: two rows of queue `"q"` (out of id order) and one
row of another queue. -/
def exTasks : List TaskRow :=
  [⟨2, "q", "b"⟩, ⟨1, "q", "a"⟩, ⟨3, "r", "c"⟩]

/-- A sample `Schedule` table: three rows of queue `"q"` (timestamps 5, 3, 9)
and one row of queue `"p"`. -/
def exSched : List ScheduleRow :=
  [⟨1, "q", "x", 5⟩, ⟨2, "q", "y", 3⟩, ⟨3, "p", "z", 1⟩, ⟨4, "q", "w", 9⟩]

/-- A sample facade configuration with eager mode enabled. -/
def exEagerConfig : MedusaConfig :=
  ⟨"medusa", true, true, false, true, true, false⟩

/-- An empty database. -/
def exEmptyStorage : StorageState :=
  ⟨[], [], []⟩

/-- A constant stand-in for the platform's `gmtime ∘ mktime` round trip. -/
def exGm : PyDateTime → StructTime :=
  fun _ => ⟨1970, 1, 1, 0, 0, 0, 3, 1, 0⟩

/-- A constant stand-in for the calendar encoding of datetime fields. -/
def exEnc : List Int → Int :=
  fun _ => 0

/-! # Supporting lemmas -/

/-- Filtering a list whose keys are pairwise distinct by a predicate that
holds at `t` and forces the key of `t` yields exactly `[t]`. -/
theorem filter_key_singleton {α : Type} (key : α → Nat) {l : List α}
    (hnd : (List.map key l).Nodup) {t : α} (ht : t ∈ l) {p : α → Bool}
    (hpt : p t = true) (hp : ∀ u, p u = true → key u = key t) :
    l.filter p = [t] := by
  induction l with
  | nil => cases ht
  | cons a l ih =>
    rw [List.map_cons, List.nodup_cons] at hnd
    rcases List.mem_cons.mp ht with rfl | htl
    · have hrest : l.filter p = [] := by
        rw [List.filter_eq_nil_iff]
        intro u hu hpu
        exact hnd.1 (List.mem_map.mpr ⟨u, hu, hp u hpu⟩)
      rw [List.filter_cons_of_pos hpt, hrest]
    · have hpa : ¬ p a = true := by
        intro hpa
        have hkey : key a ∈ List.map key l := by
          rw [hp a hpa]
          exact List.mem_map.mpr ⟨t, htl, rfl⟩
        exact hnd.1 hkey
      rw [List.filter_cons_of_neg hpa]
      exact ih hnd.2 htl

/-- On a nonempty list, `minIdRow` returns a row. -/
theorem minIdRow_isSome (l : List TaskRow) (h : l ≠ []) :
    (SqliteStorage.minIdRow l).isSome = true := by
  cases l with
  | nil => exact absurd rfl h
  | cons r rs =>
    simp only [SqliteStorage.minIdRow]
    cases hm : SqliteStorage.minIdRow rs with
    | none => rfl
    | some m =>
      dsimp only
      split <;> rfl

/-- The row returned by `minIdRow` belongs to the list. -/
theorem minIdRow_mem :
    ∀ {l : List TaskRow} {t : TaskRow},
      SqliteStorage.minIdRow l = some t → t ∈ l := by
  intro l
  induction l with
  | nil => intro t h; exact Option.noConfusion h
  | cons r rs ih =>
    intro t h
    simp only [SqliteStorage.minIdRow] at h
    cases hm : SqliteStorage.minIdRow rs with
    | none =>
      rw [hm] at h
      injection h with h
      exact h ▸ List.mem_cons_self r rs
    | some m =>
      rw [hm] at h
      dsimp only at h
      split at h
      · injection h with h
        exact h ▸ List.mem_cons_self r rs
      · injection h with h
        exact List.mem_cons_of_mem r (h ▸ ih hm)

/-- The row returned by `minIdRow` has the least id of the list. -/
theorem minIdRow_le :
    ∀ {l : List TaskRow} {t : TaskRow},
      SqliteStorage.minIdRow l = some t → ∀ u ∈ l, t.id ≤ u.id := by
  intro l
  induction l with
  | nil => intro t h; exact Option.noConfusion h
  | cons r rs ih =>
    intro t h u hu
    simp only [SqliteStorage.minIdRow] at h
    cases hm : SqliteStorage.minIdRow rs with
    | none =>
      rw [hm] at h
      injection h with h
      subst h
      rcases List.mem_cons.mp hu with rfl | hul
      · exact Nat.le_refl _
      · cases rs with
        | nil => cases hul
        | cons a as =>
          have := minIdRow_isSome (a :: as) (List.cons_ne_nil a as)
          rw [hm] at this
          exact Bool.noConfusion this
    | some m =>
      rw [hm] at h
      dsimp only at h
      rcases List.mem_cons.mp hu with rfl | hul
      · split at h
        · injection h with h; subst h; exact Nat.le_refl _
        · injection h with h
          subst h
          exact Nat.le_of_lt (Nat.lt_of_not_le (by assumption))
      · split at h
        · injection h with h
          subst h
          exact Nat.le_trans (by assumption) (ih hm u hul)
        · injection h with h
          subst h
          exact ih hm u hul

/-! # Claim theorems -/

/-- C3: with eager mode enabled, `Medusa.enqueue` executes the task
synchronously, returns exactly the wrapped function's return value, and
performs no storage operation (the database state is unchanged). -/
theorem enqueue_eager_C3 (cfg : MedusaConfig) (t : MTask) (st : StorageState)
    (h : cfg.always_eager = true) :
    enqueue cfg t st = (.ok (.value t.executeResult), st) := by
  simp [enqueue, h]

/-- Witness for C3 at a concrete eager configuration, task and database. -/
theorem enqueue_eager_C3_witness :
    exEagerConfig.always_eager = true ∧
    enqueue exEagerConfig ⟨"msg", "42"⟩ exEmptyStorage =
      (.ok (.value "42"), exEmptyStorage) :=
  ⟨rfl, enqueue_eager_C3 exEagerConfig ⟨"msg", "42"⟩ exEmptyStorage rfl⟩

/-- C4 counterexample: calling `schedule` with both a (nonzero) `delay` and an
`eta` raises the builtin `ValueError`, not a Configuration-kind taxonomy
exception, at the concrete input `delay=1`, `eta=epoch`. -/
theorem schedule_C4_counterexample :
    (scheduleMethod exGm exEnc 0 0 (some ⟨0, none⟩) (some 1) true
      exEmptyStorage).1 = .error .valueError ∧
    raisesConfigurationKind
      (scheduleMethod exGm exEnc 0 0 (some ⟨0, none⟩) (some 1) true
        exEmptyStorage) = false :=
  ⟨rfl, rfl⟩

/-- C4 (amended): for every call to a decorated task's `schedule` method in
which both `delay` and `eta` are passed with `delay` nonzero (Python
truthiness), the call fails with the builtin `ValueError`, raised
synchronously before any storage interaction, and performs no storage
write (the database state is returned unchanged). -/
theorem schedule_delay_eta_C4 (gm : PyDateTime → StructTime)
    (enc : List Int → Int) (loff now : Int) (e : PyDateTime) (d : Int)
    (conv : Bool) (st : StorageState) (hd : d ≠ 0) :
    scheduleMethod gm enc loff now (some e) (some d) conv st =
      (.error .valueError, st) := by
  have htd : (d != 0) = true := by simpa using hd
  simp [scheduleMethod, truthyDelay, truthyEta, htd]

/-- Witness for C4 at the concrete input `delay=1`, `eta=epoch`. -/
theorem schedule_delay_eta_C4_witness :
    (1 : Int) ≠ 0 ∧
    scheduleMethod exGm exEnc 0 0 (some ⟨0, none⟩) (some 1) true
        exEmptyStorage =
      (.error .valueError, exEmptyStorage) :=
  ⟨one_ne_zero,
    schedule_delay_eta_C4 exGm exEnc 0 0 ⟨0, none⟩ 1 true exEmptyStorage
      one_ne_zero⟩

/-- C5: every wrapped facade operation re-raises any backend error as the
taxonomy kind its decorator names, with a message carrying the backend
error's kind name and message as context (so the raw backend error never
escapes the facade). -/
theorem wrapped_ops_C5 (e : BackendErr) :
    _enqueue (.error e) =
      .error (.taxonomy .queueWrite
        (kindLabel .queueWrite ++ ": " ++ (e.kindName ++ ": " ++ e.message))) ∧
    _dequeue (.error e) =
      .error (.taxonomy .queueRead
        (kindLabel .queueRead ++ ": " ++ (e.kindName ++ ": " ++ e.message))) ∧
    _unqueue (.error e) =
      .error (.taxonomy .queueRemove
        (kindLabel .queueRemove ++ ": " ++ (e.kindName ++ ": " ++ e.message))) ∧
    (∀ pop_call, _get_data true (.error e) pop_call =
      .error (.taxonomy .dataStoreGet
        (kindLabel .dataStoreGet ++ ": " ++ (e.kindName ++ ": " ++ e.message)))) ∧
    (∀ peek_call, _get_data false peek_call (.error e) =
      .error (.taxonomy .dataStoreGet
        (kindLabel .dataStoreGet ++ ": " ++ (e.kindName ++ ": " ++ e.message)))) ∧
    _put_data (.error e) =
      .error (.taxonomy .dataStorePut
        (kindLabel .dataStorePut ++ ": " ++ (e.kindName ++ ": " ++ e.message))) ∧
    _put_error (.error e) =
      .error (.taxonomy .dataStorePut
        (kindLabel .dataStorePut ++ ": " ++ (e.kindName ++ ": " ++ e.message))) ∧
    _get_errors (.error e) =
      .error (.taxonomy .dataStoreGet
        (kindLabel .dataStoreGet ++ ": " ++ (e.kindName ++ ": " ++ e.message))) ∧
    _add_to_schedule (.error e) =
      .error (.taxonomy .scheduleAdd
        (kindLabel .scheduleAdd ++ ": " ++ (e.kindName ++ ": " ++ e.message))) ∧
    _read_schedule (.error e) =
      .error (.taxonomy .scheduleRead
        (kindLabel .scheduleRead ++ ": " ++ (e.kindName ++ ": " ++ e.message))) :=
  ⟨rfl, rfl, rfl, fun _ => rfl, fun _ => rfl, rfl, rfl, rfl, rfl, rfl⟩

/-- C6: the naive-ETA-with-`convert_utc` branch is broken in the source:
`local_to_utc` passes all nine `struct_time` fields positionally to the
`datetime` constructor (the `[:6]` slice is misplaced outside the call), so it
raises TypeError instead of converting local time to UTC, for every naive
datetime and every platform clock; hence `schedule` with a naive `eta` and
`convert_utc` also raises TypeError. -/
theorem local_to_utc_C6 (gm : PyDateTime → StructTime) (enc : List Int → Int)
    (loff now w : Int) (st : StorageState) :
    local_to_utc gm enc ⟨w, none⟩ = .error .typeError ∧
    scheduleMethod gm enc loff now (some ⟨w, none⟩) none true st =
      (.error .typeError, st) :=
  ⟨rfl, rfl⟩

/-- C7: `unqueue(payload)` deletes exactly the Task rows of this queue whose
payload equals the given value; rows of the same queue with another payload
and rows of other queues all remain. -/
theorem unqueue_C7 (name data : String) (tbl : List TaskRow) :
    (SqliteStorage.unqueue name data tbl).2 =
      tbl.filter (fun r => !(r.queue == name && r.data == data)) ∧
    (∀ r : TaskRow,
      r ∈ (SqliteStorage.unqueue name data tbl).2 ↔
        r ∈ tbl ∧ ¬(r.queue = name ∧ r.data = data)) ∧
    (∀ r ∈ tbl, r.queue = name → r.data = data →
      r ∉ (SqliteStorage.unqueue name data tbl).2) := by
  have hmem : ∀ r : TaskRow,
      r ∈ (SqliteStorage.unqueue name data tbl).2 ↔
        r ∈ tbl ∧ ¬(r.queue = name ∧ r.data = data) := by
    intro r
    simp [SqliteStorage.unqueue, SqliteStorage.deleteWhere, List.mem_filter]
    tauto
  exact ⟨rfl, hmem, fun r hr hq hd hin => ((hmem r).mp hin).2 ⟨hq, hd⟩⟩

/-- C8: `Medusa.emit` swallows every failure of the underlying storage emit
and returns normally. -/
theorem emit_C8 (call : Except BackendErr Unit) : emit call = .ok () := by
  cases call <;> rfl

/-- C9 counterexample: at the concrete aware datetime (wall 100, offset 60),
the value re-expressed at UTC offset is still aware, yet `aware_to_utc`
returns normally — the internal assertion does not fail, refuting that it
"fails exactly when the re-expressed value is still aware". -/
theorem aware_to_utc_C9_counterexample :
    is_aware (astimezoneUTC 0 ⟨100, some 60⟩) = true ∧
    aware_to_utc 0 ⟨100, some 60⟩ = .ok ⟨40, none⟩ ∧
    ¬ aware_to_utc 0 ⟨100, some 60⟩ = .error .assertionError :=
  ⟨rfl, rfl, fun h => Except.noConfusion h⟩

/-- C9 (amended): for every aware datetime, `aware_to_utc` returns a naive
datetime equal to the input re-expressed at UTC offset with the offset then
stripped, and its internal assertion fails exactly when the re-expressed
value is still naive (which never happens, since re-expressing always
attaches the UTC offset). -/
theorem aware_to_utc_C9 (loff w o : Int) :
    aware_to_utc loff ⟨w, some o⟩ =
      .ok (make_naive (astimezoneUTC loff ⟨w, some o⟩)) ∧
    aware_to_utc loff ⟨w, some o⟩ = .ok ⟨w - o, none⟩ ∧
    (∀ dt : PyDateTime,
      aware_to_utc loff dt = .error .assertionError ↔
        is_naive (astimezoneUTC loff dt) = true) := by
  refine ⟨rfl, rfl, ?_⟩
  intro dt
  obtain ⟨wall, tz⟩ := dt
  cases tz <;> simp [aware_to_utc, astimezoneUTC, is_naive, make_naive]

/-- C10: `scheduled_items(limit)` ignores its `limit` argument entirely and
returns the payloads of all of this queue's Schedule rows in timestamp
order. -/
theorem scheduled_items_C10 (name : String) (tbl : List ScheduleRow)
    (limit limit' : Option Nat) :
    SqliteStorage.scheduled_items name limit tbl =
      SqliteStorage.scheduled_items name limit' tbl ∧
    SqliteStorage.scheduled_items name limit tbl =
      (SqliteStorage.schedule name tbl).map ScheduleRow.data ∧
    List.Sorted SqliteStorage.tsLe (SqliteStorage.schedule name tbl) ∧
    (SqliteStorage.schedule name tbl).Perm
      (tbl.filter (fun r => r.queue == name)) ∧
    (∀ r : ScheduleRow,
      r ∈ SqliteStorage.schedule name tbl ↔ r ∈ tbl ∧ r.queue = name) := by
  refine ⟨rfl, rfl, List.sorted_insertionSort _ _, List.perm_insertionSort _ _,
    ?_⟩
  intro r
  simp [SqliteStorage.schedule, List.mem_insertionSort, List.mem_filter]

/-- C1: `dequeue` selects the single lowest-id Task row of this queue,
deletes it by id, and returns its payload only when the delete affected
exactly one row; when the selection finds no row (empty queue) it returns the
absent value and leaves the table unchanged, and when the delete affects zero
rows (the row vanished between the select and the delete) it also returns the
absent value. -/
theorem dequeue_C1 (name : String) (tbl : List TaskRow)
    (hnd : taskIdsNodup tbl) :
    (SqliteStorage.tasks name tbl = [] →
      SqliteStorage.dequeue name tbl = (none, tbl)) ∧
    (∀ t : TaskRow,
      SqliteStorage.minIdRow (SqliteStorage.tasks name tbl) = some t →
      (t ∈ tbl ∧ t.queue = name ∧
        ∀ u ∈ SqliteStorage.tasks name tbl, t.id ≤ u.id) ∧
      SqliteStorage.dequeue name tbl =
        (some t.data,
          tbl.filter (fun r => !(r.queue == name && r.id == t.id)))) ∧
    (∀ t : TaskRow,
      SqliteStorage.minIdRow (SqliteStorage.tasks name tbl) = some t →
      ∀ s₂ : List TaskRow, (∀ r ∈ s₂, ¬(r.queue = name ∧ r.id = t.id)) →
        (SqliteStorage.dequeueSteps name tbl s₂).1 = none) := by
  refine ⟨?_, ?_, ?_⟩
  · intro h
    simp [SqliteStorage.dequeue, SqliteStorage.dequeueSteps, h,
      SqliteStorage.minIdRow]
  · intro t ht
    have htm : t ∈ SqliteStorage.tasks name tbl := minIdRow_mem ht
    have htbl : t ∈ tbl ∧ t.queue = name := by
      have h := htm
      simp [SqliteStorage.tasks, List.mem_filter] at h
      exact h
    have hfil : tbl.filter (fun r => r.queue == name && r.id == t.id) = [t] :=
      filter_key_singleton TaskRow.id hnd htbl.1
        (by simp [htbl.2])
        (fun u hu => by
          simp only [Bool.and_eq_true, beq_iff_eq] at hu
          exact hu.2)
    refine ⟨⟨htbl.1, htbl.2, minIdRow_le ht⟩, ?_⟩
    simp only [SqliteStorage.dequeue, SqliteStorage.dequeueSteps,
      SqliteStorage.deleteWhere, ht]
    simp [hfil]
  · intro t ht s₂ hs₂
    have hfil : s₂.filter (fun r => r.queue == name && r.id == t.id) = [] := by
      rw [List.filter_eq_nil_iff]
      intro r hr
      simp only [Bool.and_eq_true, beq_iff_eq, not_and]
      exact fun h1 h2 => hs₂ r hr ⟨h1, h2⟩
    simp [SqliteStorage.dequeueSteps, SqliteStorage.deleteWhere, ht, hfil]

/-- Witness for C1 at a concrete table: the lowest-id row of queue `"q"` is
dequeued and only that row disappears. -/
theorem dequeue_C1_witness :
    taskIdsNodup exTasks ∧
    SqliteStorage.dequeue "q" exTasks =
      (some "a", [⟨2, "q", "b"⟩, ⟨3, "r", "c"⟩]) := by
  have h := (dequeue_C1 "q" exTasks (by decide)).2.1 ⟨1, "q", "a"⟩ (by decide)
  refine ⟨by decide, ?_⟩
  rw [h.2]
  decide

/-- If no schedule row of this queue is due at the cutoff, `read_schedule`
returns the empty list and performs no delete. -/
theorem read_schedule_no_due (name : String) (ts : Int)
    (tbl : List ScheduleRow)
    (h : SqliteStorage.scheduleDue name ts tbl = []) :
    SqliteStorage.read_schedule name ts tbl = ([], tbl) := by
  simp [SqliteStorage.read_schedule, h]

/-- The table left by `read_schedule` is the input filtered by the bulk
delete's id list (also when no row was due, since then no id matches). -/
theorem read_schedule_snd (name : String) (ts : Int)
    (tbl : List ScheduleRow) :
    (SqliteStorage.read_schedule name ts tbl).2 =
      tbl.filter (fun x =>
        !(((SqliteStorage.scheduleDue name ts tbl).map
            ScheduleRow.id).contains x.id)) := by
  simp only [SqliteStorage.read_schedule]
  split
  · next hemp =>
    have hnil : (SqliteStorage.scheduleDue name ts tbl).map ScheduleRow.id
        = [] := by
      simpa [List.isEmpty_iff] using hemp
    rw [hnil]
    simp
  · rfl

/-- C2: `read_schedule(ts)` returns exactly the payloads of this queue's
Schedule rows with timestamp at or before the cutoff, in timestamp order,
and deletes exactly those rows together with the read: a second read at the
same cutoff returns nothing and changes nothing, and when no row is due the
table is left untouched. -/
theorem read_schedule_C2 (name : String) (ts : Int) (tbl : List ScheduleRow)
    (hnd : scheduleIdsNodup tbl) :
    (SqliteStorage.read_schedule name ts tbl).1 =
      (SqliteStorage.scheduleDue name ts tbl).map ScheduleRow.data ∧
    List.Sorted SqliteStorage.tsLe (SqliteStorage.scheduleDue name ts tbl) ∧
    (∀ r : ScheduleRow,
      r ∈ SqliteStorage.scheduleDue name ts tbl ↔
        r ∈ tbl ∧ r.queue = name ∧ r.timestamp ≤ ts) ∧
    (∀ r : ScheduleRow,
      r ∈ (SqliteStorage.read_schedule name ts tbl).2 ↔
        r ∈ tbl ∧ ¬(r.queue = name ∧ r.timestamp ≤ ts)) ∧
    (SqliteStorage.scheduleDue name ts tbl = [] →
      SqliteStorage.read_schedule name ts tbl = ([], tbl)) ∧
    SqliteStorage.read_schedule name ts
        (SqliteStorage.read_schedule name ts tbl).2 =
      ([], (SqliteStorage.read_schedule name ts tbl).2) := by
  have hmemDue : ∀ (tbl' : List ScheduleRow) (r : ScheduleRow),
      r ∈ SqliteStorage.scheduleDue name ts tbl' ↔
        r ∈ tbl' ∧ r.queue = name ∧ r.timestamp ≤ ts := by
    intro tbl' r
    simp [SqliteStorage.scheduleDue, SqliteStorage.schedule, List.mem_filter,
      List.mem_insertionSort, and_assoc]
  have hfst : (SqliteStorage.read_schedule name ts tbl).1 =
      (SqliteStorage.scheduleDue name ts tbl).map ScheduleRow.data := by
    simp only [SqliteStorage.read_schedule]
    split <;> rfl
  have hidIff : ∀ r : ScheduleRow, r ∈ tbl →
      (r.id ∈ (SqliteStorage.scheduleDue name ts tbl).map ScheduleRow.id ↔
        r.queue = name ∧ r.timestamp ≤ ts) := by
    intro r hr
    constructor
    · intro hid
      rcases List.mem_map.mp hid with ⟨u, hu, huid⟩
      have hu' := (hmemDue tbl u).mp hu
      have hur : u = r := List.inj_on_of_nodup_map hnd hu'.1 hr huid
      exact hur ▸ ⟨hu'.2.1, hu'.2.2⟩
    · intro h
      exact List.mem_map.mpr ⟨r, (hmemDue tbl r).mpr ⟨hr, h.1, h.2⟩, rfl⟩
  have hmemRem : ∀ r : ScheduleRow,
      r ∈ (SqliteStorage.read_schedule name ts tbl).2 ↔
        r ∈ tbl ∧ ¬(r.queue = name ∧ r.timestamp ≤ ts) := by
    intro r
    rw [read_schedule_snd]
    simp only [List.mem_filter, Bool.not_eq_true']
    constructor
    · intro ⟨hr, hc⟩
      refine ⟨hr, fun hdue => ?_⟩
      have hcontains : (((SqliteStorage.scheduleDue name ts tbl).map
          ScheduleRow.id).contains r.id) = true :=
        List.elem_iff.mpr ((hidIff r hr).mpr hdue)
      rw [hc] at hcontains
      exact Bool.noConfusion hcontains
    · intro ⟨hr, hdue⟩
      refine ⟨hr, ?_⟩
      by_contra hc
      have hc' : (((SqliteStorage.scheduleDue name ts tbl).map
          ScheduleRow.id).contains r.id) = true := by
        cases h' : (((SqliteStorage.scheduleDue name ts tbl).map
            ScheduleRow.id).contains r.id) with
        | false => exact absurd h' hc
        | true => rfl
      exact hdue ((hidIff r hr).mp (List.elem_iff.mp hc'))
  have hsecond : SqliteStorage.scheduleDue name ts
      (SqliteStorage.read_schedule name ts tbl).2 = [] := by
    rw [List.eq_nil_iff_forall_not_mem]
    intro r hr
    have h1 := (hmemDue _ r).mp hr
    have h2 := (hmemRem r).mp h1.1
    exact h2.2 ⟨h1.2.1, h1.2.2⟩
  exact ⟨hfst,
    List.Pairwise.sublist (List.filter_sublist _)
      (List.sorted_insertionSort SqliteStorage.tsLe _),
    hmemDue tbl, hmemRem, read_schedule_no_due name ts tbl,
    read_schedule_no_due name ts _ hsecond⟩

/-- Witness for C2 at a concrete table: the due rows of queue `"q"` come back
ordered by timestamp, and a second read finds nothing. -/
theorem read_schedule_C2_witness :
    scheduleIdsNodup exSched ∧
    (SqliteStorage.read_schedule "q" 5 exSched).1 = ["y", "x"] ∧
    SqliteStorage.read_schedule "q" 5
        (SqliteStorage.read_schedule "q" 5 exSched).2 =
      ([], (SqliteStorage.read_schedule "q" 5 exSched).2) := by
  have h := read_schedule_C2 "q" 5 exSched (by decide)
  refine ⟨by decide, ?_, h.2.2.2.2.2⟩
  rw [h.1]
  decide

end Medusa
